import Mathlib

/-!
# Verification of the sequb-ui secure process supervisor

Shallow embedding of `src/src-tauri/src/security.rs` and
`src/src-tauri/src/main.rs`, together with proofs about the embedded
operations.  Machine integers are modelled as `Nat` with explicit
reduction modulo `2 ^ 32` where the Rust code works on `u32` words;
bytes are `Nat`s (reduced modulo 256 where they are packed into words);
fallible Rust functions returning `Result<T, String>` are modelled as
`Except String T`.  Calls into the operating system (port probing,
`libc::kill`, the `/proc` filesystem) are modelled as explicit functional
parameters describing the OS state observed by the call.
-/

set_option maxRecDepth 4096

/-! ## SHA-256 (model of the `sha2` crate used by both verifiers)

The `sha2` crate exposes an incremental hasher: `update` absorbs bytes,
buffering a partial block and compressing each complete 64-byte block;
`finalize` pads and produces the digest.  This is the standard FIPS 180-4
construction, modelled here byte-for-byte so that the chunked reader of
`security.rs` and the one-shot reader of `main.rs` can be compared. -/

def w32 (n : Nat) : Nat := n % 4294967296

def rotr32 (n x : Nat) : Nat := w32 ((x >>> n) ||| (x <<< (32 - n)))

def bigSigma0 (x : Nat) : Nat := (rotr32 2 x) ^^^ (rotr32 13 x) ^^^ (rotr32 22 x)

def bigSigma1 (x : Nat) : Nat := (rotr32 6 x) ^^^ (rotr32 11 x) ^^^ (rotr32 25 x)

def smallSigma0 (x : Nat) : Nat := (rotr32 7 x) ^^^ (rotr32 18 x) ^^^ (x >>> 3)

def smallSigma1 (x : Nat) : Nat := (rotr32 17 x) ^^^ (rotr32 19 x) ^^^ (x >>> 10)

def chFn (e f g : Nat) : Nat := (e &&& f) ^^^ ((e ^^^ 4294967295) &&& g)

def majFn (a b c : Nat) : Nat := (a &&& b) ^^^ (a &&& c) ^^^ (b &&& c)

def K256 : List Nat :=
  [1116352408, 1899447441, 3049323471, 3921009573, 961987163, 1508970993,
   2453635748, 2870763221, 3624381080, 310598401, 607225278, 1426881987,
   1925078388, 2162078206, 2614888103, 3248222580, 3835390401, 4022224774,
   264347078, 604807628, 770255983, 1249150122, 1555081692, 1996064986,
   2554220882, 2821834349, 2952996808, 3210313671, 3336571891, 3584528711,
   113926993, 338241895, 666307205, 773529912, 1294757372, 1396182291,
   1695183700, 1986661051, 2177026350, 2456956037, 2730485921, 2820302411,
   3259730800, 3345764771, 3516065817, 3600352804, 4094571909, 275423344,
   430227734, 506948616, 659060556, 883997877, 958139571, 1322822218,
   1537002063, 1747873779, 1955562222, 2024104815, 2227730452, 2361852424,
   2428436474, 2756734187, 3204031479, 3329325298]

def sha256InitHash : List Nat :=
  [1779033703, 3144134277, 1013904242, 2773480762,
   1359893119, 2600822924, 528734635, 1541459225]

/-- Pack bytes into big-endian 32-bit words (FIPS 180-4 message words). -/
def bytesToWords : List Nat → List Nat
  | b0 :: b1 :: b2 :: b3 :: rest =>
      ((b0 % 256) * 16777216 + (b1 % 256) * 65536 + (b2 % 256) * 256 + (b3 % 256)) :: bytesToWords rest
  | _ => []

/-- One extension step of the message schedule: appends word `W t` computed
from `W (t-2)`, `W (t-7)`, `W (t-15)`, `W (t-16)`. -/
def scheduleStep (w : List Nat) : List Nat :=
  let n := w.length
  w ++ [w32 (smallSigma1 (w.getD (n - 2) 0) + w.getD (n - 7) 0 +
             smallSigma0 (w.getD (n - 15) 0) + w.getD (n - 16) 0)]

/-- One compression round on the working variables `[a,b,c,d,e,f,g,h]`. -/
def roundStep (st : List Nat) (kw : Nat × Nat) : List Nat :=
  match st with
  | [a, b, c, d, e, f, g, h] =>
      let t1 := w32 (h + bigSigma1 e + chFn e f g + kw.1 + kw.2)
      let t2 := w32 (bigSigma0 a + majFn a b c)
      [w32 (t1 + t2), a, b, c, w32 (d + t1), e, f, g]
  | other => other

/-- SHA-256 compression function on one 64-byte block. -/
def compress (h : List Nat) (block : List Nat) : List Nat :=
  let w := Nat.repeat scheduleStep 48 (bytesToWords block)
  let fin := (K256.zip w).foldl roundStep h
  List.zipWith (fun x y => w32 (x + y)) h fin

/-- Incremental hasher state: current chaining value, buffered partial
block, and total number of bytes absorbed (drives the final padding). -/
structure Sha256 where
  hash : List Nat
  buf : List Nat
  len : Nat

def Sha256.start : Sha256 := ⟨sha256InitHash, [], 0⟩

/-- Worker for `absorb`, structurally recursive on a fuel bound so that the
kernel can evaluate it (any fuel at least `data.length` gives the fixpoint). -/
def absorbGo (fuel : Nat) (h : List Nat) (data : List Nat) : List Nat × List Nat :=
  match fuel with
  | 0 => (h, data)
  | fuel + 1 =>
    if 64 ≤ data.length then absorbGo fuel (compress h (data.take 64)) (data.drop 64)
    else (h, data)

/-- Compress every complete 64-byte block of `data`, returning the new
chaining value and the remaining partial block. -/
def absorb (h : List Nat) (data : List Nat) : List Nat × List Nat :=
  absorbGo data.length h data

/-- `Digest::update`: absorb bytes into the hasher. -/
def shaUpdate (st : Sha256) (data : List Nat) : Sha256 :=
  let r := absorb st.hash (st.buf ++ data)
  ⟨r.1, r.2, st.len + data.length⟩

/-- Big-endian 8-byte encoding of a `Nat` (the length field of the padding). -/
def be8 (n : Nat) : List Nat :=
  [n / 72057594037927936 % 256, n / 281474976710656 % 256, n / 1099511627776 % 256,
   n / 4294967296 % 256, n / 16777216 % 256, n / 65536 % 256, n / 256 % 256, n % 256]

/-- FIPS 180-4 padding for a message of `len` bytes: `0x80`, zeros to 56 mod
64, then the bit length in 8 big-endian bytes. -/
def shaPadding (len : Nat) : List Nat :=
  128 :: List.replicate ((119 - len % 64) % 64) 0 ++ be8 (len * 8)

/-- `Digest::finalize`: pad and compress, returning the eight digest words. -/
def shaFinalize (st : Sha256) : List Nat :=
  (absorb st.hash (st.buf ++ shaPadding st.len)).1

def hexDigitCh (n : Nat) : Char :=
  if n < 10 then Char.ofNat (48 + n) else Char.ofNat (87 + n)

/-- Lowercase hex rendering of one 32-bit word, 8 digits. -/
def word8hex (w : Nat) : List Char :=
  [hexDigitCh (w / 268435456 % 16), hexDigitCh (w / 16777216 % 16),
   hexDigitCh (w / 1048576 % 16), hexDigitCh (w / 65536 % 16),
   hexDigitCh (w / 4096 % 16), hexDigitCh (w / 256 % 16),
   hexDigitCh (w / 16 % 16), hexDigitCh (w % 16)]

/-- `format!("{:x}", hasher.finalize())`: lowercase hex of the digest. -/
def digestHex (h : List Nat) : String := String.mk ((h.map word8hex).flatten)

/-- Worker for `chunks8192`, structurally recursive on a fuel bound (any
fuel at least `l.length` gives the fixpoint). -/
def chunksGo (fuel : Nat) (l : List Nat) : List (List Nat) :=
  match fuel with
  | 0 => []
  | fuel + 1 =>
    match l with
    | [] => []
    | c :: rest => ((c :: rest).take 8192) :: chunksGo fuel ((c :: rest).drop 8192)

/-- The 8192-byte chunks in which `security.rs` reads the binary
(`let mut buffer = [0; 8192];` and the read loop). -/
def chunks8192 (l : List Nat) : List (List Nat) :=
  chunksGo l.length l

/-- Digest as computed by `security.rs::verify_binary_integrity`: the file is
read in 8192-byte chunks, each fed to `hasher.update`. -/
def sha256Chunked (content : List Nat) : String :=
  digestHex (shaFinalize (List.foldl shaUpdate Sha256.start (chunks8192 content)))

/-- Digest as computed by `main.rs::verify_binary_integrity`: the whole file
is read into memory and hashed with a single `update`. -/
def sha256OneShot (content : List Nat) : String :=
  digestHex (shaFinalize (shaUpdate Sha256.start content))

/-! ## SecurityConfig (`security.rs`) -/

structure SecurityConfig where
  allowed_ports : List Nat
  binary_hash : String
  max_memory_mb : Nat
  max_cpu_percent : Nat
  sandbox_enabled : Bool

/-- `impl Default for SecurityConfig`. -/
def SecurityConfig.standard : SecurityConfig :=
  ⟨[3000, 3001, 3002, 3003, 3004], "", 512, 50, true⟩

/-! ## Integrity verifiers

`security.rs::verify_binary_integrity` is given here the byte content of
the file at `path` (the `fs::File::open`/`read` calls are the access to
that content; an unopenable file errors out before hashing and is outside
these claims).  The `#[cfg(debug_assertions)]` build split is the `debug`
parameter.  The `eprintln!` warning is modelled as the list of stderr
lines emitted, paired with the returned `Result`. -/

def verify_binary_integrity (debug : Bool) (content : List Nat) (expected_hash : String) :
    List String × Except String Unit :=
  if expected_hash = "" then
    if debug then
      (["WARNING: Binary hash verification skipped in debug mode"], Except.ok ())
    else
      ([], Except.error "Binary hash not configured")
  else
    let result := sha256Chunked content
    if result ≠ expected_hash then
      ([], Except.error ("Binary integrity check failed. Expected: " ++ expected_hash ++
        ", Got: " ++ result))
    else
      ([], Except.ok ())

/-- `main.rs::verify_binary_integrity`: reads the whole file, hashes it in
one step and returns `Ok(calculated_hash == expected_hash)`. -/
def main_verify_binary_integrity (content : List Nat) (expected_hash : String) : Bool :=
  sha256OneShot content == expected_hash

/-! ## Port allocation (`security.rs`)

`is_port_in_use` probes the OS by binding; the occupancy state observed by
the probes is the `inUse` parameter. -/

/-- `security.rs::validate_port`. -/
def validate_port (inUse : Nat → Bool) (port : Nat) (config : SecurityConfig) :
    Except String Nat :=
  if ¬ config.allowed_ports.contains port ∧ (port < 1024 ∨ 65535 < port) then
    Except.error ("Port " ++ toString port ++ " is outside allowed range")
  else if inUse port then
    Except.error ("Port " ++ toString port ++ " is already in use")
  else
    Except.ok port

/-- `security.rs::find_available_port`: first free port of
`config.allowed_ports` in list order, else first free port of `3000..4000`
in ascending order, else an error. -/
def find_available_port (inUse : Nat → Bool) (config : SecurityConfig) : Except String Nat :=
  match config.allowed_ports.find? (fun p => !inUse p) with
  | some p => Except.ok p
  | none =>
    match (List.range' 3000 1000).find? (fun p => !inUse p) with
    | some p => Except.ok p
    | none => Except.error "No available ports found"

/-! ## Argument sanitizer (`security.rs::validate_command_args`)

The five deny regexes are compiled to executable character-list matchers:
`[;&|`  `$]` (any shell metacharacter), `\.\./` (the substring `../`),
`^-` (a leading dash), `\$\(` (the substring `$(`), and `>\s*\/dev\/`
(`>` followed by whitespace and `/dev/`).  `\s` is the exact Unicode
`\p{White_Space}` class (`isSpaceCh`); the greedy whitespace skip in the
device-redirection scanner coincides with the regex's match semantics
because `/` is not a whitespace character. -/

def isPre : List Char → List Char → Bool
  | [], _ => true
  | _ :: _, [] => false
  | a :: as, b :: bs => a == b && isPre as bs

/-- Does `p` hold of some suffix of the list?  (A regex without anchors
matches iff it matches at some starting position.) -/
def anySuffix (p : List Char → Bool) : List Char → Bool
  | [] => p []
  | c :: rest => p (c :: rest) || anySuffix p rest

def strHas (needle : List Char) (l : List Char) : Bool := anySuffix (isPre needle) l

/-- The regex crate's `\s`, which is Unicode `\p{White_Space}` by default:
U+0009–U+000D, U+0020, U+0085, U+00A0, U+1680, U+2000–U+200A, U+2028,
U+2029, U+202F, U+205F and U+3000 — enumerated here exactly. -/
def isSpaceCh (c : Char) : Bool :=
  let n := c.toNat
  (decide (9 ≤ n) && decide (n ≤ 13)) || n == 32 || n == 133 || n == 160 || n == 5760 ||
    (decide (8192 ≤ n) && decide (n ≤ 8202)) || n == 8232 || n == 8233 || n == 8239 ||
    n == 8287 || n == 12288

def shellMeta (l : List Char) : Bool :=
  l.any (fun c => c == ';' || c == '&' || c == '|' || c == '`' || c == '$')

def startsDash : List Char → Bool
  | '-' :: _ => true
  | _ => false

def devAfterGt : List Char → Bool
  | [] => false
  | c :: rest => if isSpaceCh c then devAfterGt rest else isPre ['/', 'd', 'e', 'v', '/'] (c :: rest)

def gtDevAt : List Char → Bool
  | '>' :: rest => devAfterGt rest
  | _ => false

/-- An argument matches one of the five deny patterns. -/
def matchesDangerous (arg : String) : Bool :=
  shellMeta arg.data || strHas ['.', '.', '/'] arg.data || startsDash arg.data ||
    strHas ['$', '('] arg.data || anySuffix gtDevAt arg.data

/-- `arg.split('=')` (Rust `str::split` on `'='`). -/
def splitEqGo (cur : List Char) : List Char → List (List Char)
  | [] => [cur.reverse]
  | c :: rest => if c == '=' then cur.reverse :: splitEqGo [] rest else splitEqGo (c :: cur) rest

def splitEq (l : List Char) : List (List Char) := splitEqGo [] l

def digitsValGo (acc : Nat) : List Char → Option Nat
  | [] => some acc
  | c :: rest => if c.isDigit then digitsValGo (acc * 10 + (c.toNat - 48)) rest else none

/-- `str::parse::<u16>()`: optional `+` sign, at least one digit, value at
most 65535 (overflow is a parse error). -/
def parseU16 : List Char → Option Nat
  | [] => none
  | '+' :: rest =>
      match rest with
      | [] => none
      | _ =>
        match digitsValGo 0 rest with
        | some n => if n ≤ 65535 then some n else none
        | none => none
  | l =>
    match digitsValGo 0 l with
    | some n => if n ≤ 65535 then some n else none
    | none => none

/-- The extra check for `--port=`/`-p` arguments inside
`validate_command_args` (the branch after the deny patterns). -/
def checkPortArg (arg : String) : Except String Unit :=
  if isPre ['-', '-', 'p', 'o', 'r', 't', '='] arg.data || isPre ['-', 'p'] arg.data then
    match parseU16 ((splitEq arg.data).getLastD []) with
    | some port =>
        if port < 1024 ∨ 65535 < port then
          Except.error ("Invalid port number: " ++ toString port)
        else Except.ok ()
    | none => Except.error ("Invalid port format: " ++ arg)
  else Except.ok ()

/-- `security.rs::validate_command_args`: each argument is checked against
the deny patterns (first match fails the whole list), then the port branch;
surviving arguments are collected in order. -/
def validate_command_args : List String → Except String (List String)
  | [] => Except.ok []
  | arg :: rest =>
    if matchesDangerous arg then
      Except.error ("Dangerous argument detected: " ++ arg)
    else
      match checkPortArg arg with
      | Except.error e => Except.error e
      | Except.ok _ =>
        match validate_command_args rest with
        | Except.ok l => Except.ok (arg :: l)
        | Except.error e => Except.error e

/-! ## IPC message sanitizer (`security.rs::validate_ipc_message`)

`message.len()` in Rust is the UTF-8 byte length.  The five deny regexes
`<script`, `javascript:`, `on\w+\s*=`, `eval\s*\(` and `new\s+Function`
become executable scanners.  `\s` is the exact Unicode `\p{White_Space}`
class (`isSpaceCh`).  The regex crate's `\w` is the Unicode word-character
class of UTS#18 (`\p{Alphabetic}`, marks, decimal digits, connector
punctuation and join controls) — a large fixed table, carried here as the
explicit parameter `isWord`; the program is the instance of these
definitions at that class, and every theorem below is proved uniformly in
`isWord`, so it holds at that instance.  The greedy scans coincide with
the regex's match semantics because the word class, the whitespace class
and the literal characters `=`, `(` and `F` are pairwise disjoint for the
real classes. -/

/-- After `\s*`, the next character must be `=`. -/
def spaceThenEq : List Char → Bool
  | [] => false
  | c :: rest => if isSpaceCh c then spaceThenEq rest else c == '='

/-- `\w*\s*=` (the continuation after the first word character). -/
def wordThenEq (isWord : Char → Bool) : List Char → Bool
  | [] => false
  | c :: rest => if isWord c then wordThenEq isWord rest else spaceThenEq (c :: rest)

/-- `on\w+\s*=` anchored at the current position. -/
def onHandlerAt (isWord : Char → Bool) : List Char → Bool
  | 'o' :: 'n' :: c :: rest => isWord c && wordThenEq isWord rest
  | _ => false

/-- After `\s*`, the next character must be `(`. -/
def spaceThenParen : List Char → Bool
  | [] => false
  | c :: rest => if isSpaceCh c then spaceThenParen rest else c == '('

/-- `eval\s*\(` anchored at the current position. -/
def evalCallAt : List Char → Bool
  | 'e' :: 'v' :: 'a' :: 'l' :: rest => spaceThenParen rest
  | _ => false

/-- After `\s*`, the rest must start with `Function`. -/
def spacesThenFunction : List Char → Bool
  | [] => false
  | c :: rest =>
      if isSpaceCh c then spacesThenFunction rest
      else isPre ['F', 'u', 'n', 'c', 't', 'i', 'o', 'n'] (c :: rest)

/-- `new\s+Function` anchored at the current position. -/
def newFunctionAt : List Char → Bool
  | 'n' :: 'e' :: 'w' :: c :: rest => isSpaceCh c && spacesThenFunction rest
  | _ => false

/-- A message matches one of the five injection deny patterns (`isWord` is
the regex crate's Unicode `\w` class). -/
def ipcDangerous (isWord : Char → Bool) (l : List Char) : Bool :=
  strHas ['<', 's', 'c', 'r', 'i', 'p', 't'] l ||
    strHas ['j', 'a', 'v', 'a', 's', 'c', 'r', 'i', 'p', 't', ':'] l ||
    anySuffix (onHandlerAt isWord) l || anySuffix evalCallAt l || anySuffix newFunctionAt l

/-- `security.rs::validate_ipc_message` (`isWord` is the regex crate's
Unicode `\w` class). -/
def validate_ipc_message (isWord : Char → Bool) (message : String) : Except String String :=
  if 10000 < message.utf8ByteSize then
    Except.error "Message too large"
  else if ipcDangerous isWord message.data then
    Except.error "Potentially malicious content detected"
  else
    Except.ok message

/-! ## Process monitor (`security.rs::ProcessMonitor`)

The monitor holds only the numeric pid and the limits copied from the
config.  `libc::kill` is modelled by its POSIX semantics: it returns `0`
when the pid names a process that can still receive signals and `-1`
(`ESRCH`) once the process is gone; the set of signalable pids observed by
the call is the `alive` parameter.  The `/proc/<pid>/stat` and
`/proc/<pid>/status` files are the `procStat`/`procStatus` parameters
(`none` = the file does not exist, i.e. the process is not running). -/

structure ProcessMonitor where
  pid : Nat
  max_memory_mb : Nat
  max_cpu_percent : Nat

/-- `ProcessMonitor::new`. -/
def ProcessMonitor.make (pid : Nat) (config : SecurityConfig) : ProcessMonitor :=
  ⟨pid, config.max_memory_mb, config.max_cpu_percent⟩

def libcKillResult (alive : Nat → Bool) (pid : Nat) (_signal : Nat) : Int :=
  if alive pid then 0 else -1

/-- `ProcessMonitor::kill_process`: SIGTERM, then SIGKILL if that failed,
then an error if both failed. -/
def ProcessMonitor.kill_process (alive : Nat → Bool) (m : ProcessMonitor) :
    Except String Unit :=
  if libcKillResult alive m.pid 15 ≠ 0 then
    if libcKillResult alive m.pid 9 ≠ 0 then
      Except.error "Failed to kill process"
    else Except.ok ()
  else Except.ok ()

/-- Rust `str::lines` on character lists: split at `'\n'`, dropping one
trailing `'\r'` of each line; no empty final line.  `cur` holds the
current line reversed. -/
def linesGo (cur : List Char) : List Char → List (List Char)
  | [] => if cur.isEmpty then [] else [revDropCr cur]
  | c :: rest => if c == '\n' then revDropCr cur :: linesGo [] rest else linesGo (c :: cur) rest
where
  revDropCr : List Char → List Char
    | '\r' :: t => t.reverse
    | l => l.reverse

def splitLines (l : List Char) : List (List Char) := linesGo [] l

/-- Rust `str::split_whitespace`: maximal runs of non-whitespace.  `cur`
holds the current field reversed. -/
def fieldsGo (cur : List Char) : List Char → List (List Char)
  | [] => if cur.isEmpty then [] else [cur.reverse]
  | c :: rest =>
      if isSpaceCh c then
        if cur.isEmpty then fieldsGo [] rest else cur.reverse :: fieldsGo [] rest
      else fieldsGo (c :: cur) rest

def fields (l : List Char) : List (List Char) := fieldsGo [] l

/-- `str::parse::<usize>()` restricted to the values that occur here. -/
def parseUsize : List Char → Option Nat
  | [] => none
  | '+' :: rest => match rest with | [] => none | _ => digitsValGo 0 rest
  | l => digitsValGo 0 l

/-- The `for line in status.lines()` loop of `check_limits`: every `VmRSS:`
line whose second field parses is converted to MB and compared against the
limit. -/
def vmrssScan (maxMb : Nat) : List (List Char) → Except String Unit
  | [] => Except.ok ()
  | line :: rest =>
    if isPre ['V', 'm', 'R', 'S', 'S', ':'] line then
      match fields line with
      | _ :: f1 :: _ =>
        match parseUsize f1 with
        | some kb =>
          if maxMb < kb / 1024 then
            Except.error ("Process memory usage (" ++ toString (kb / 1024) ++
              " MB) exceeds limit (" ++ toString maxMb ++ " MB)")
          else vmrssScan maxMb rest
        | none => vmrssScan maxMb rest
      | _ => vmrssScan maxMb rest
    else vmrssScan maxMb rest

/-- `ProcessMonitor::check_limits` (the `#[cfg(unix)]` body): if
`/proc/<pid>/stat` does not exist the whole block is skipped and the
function returns `Ok(())`; otherwise the `VmRSS` lines of
`/proc/<pid>/status` (when readable) are checked. -/
def ProcessMonitor.check_limits (procStat procStatus : Nat → Option String)
    (m : ProcessMonitor) : Except String Unit :=
  match procStat m.pid with
  | none => Except.ok ()
  | some _stats =>
    match procStatus m.pid with
    | none => Except.ok ()
    | some status => vmrssScan m.max_memory_mb (splitLines status.data)

/-! ## Launch paths reaching the process-spawn boundary

`main.rs`'s `setup` closure is the program's launch path (`main.rs` has no
`mod security;` declaration, so nothing in `security.rs` runs).  Its
security-relevant operations are transcribed in order as a trace: in a
debug build the integrity check is compiled out and the sidecar is spawned
directly with the environment `PORT`/`SEQUB_ENV`; in a release build
`verify_binary_integrity` runs first against the placeholder constant and
`setup` aborts when it fails.  `security.rs::spawn_secure_sidecar` is
transcribed the same way (verify, validate_port, root-uid refusal, spawn
with `PORT`/`NODE_ENV`/`RUST_LOG`). -/

inductive SecOp where
  | verifyIntegrity (binary : String) (digest : String) : SecOp
  | validateArgsCall (args : List String) : SecOp
  | validatePortCall (port : Nat) : SecOp
  | validateIpcCall (msg : String) : SecOp
  | findFreePort : SecOp
  | spawnSidecar (program : String) (args : List String) (env : List (String × String)) : SecOp

/-- The operations that move a string from "untrusted" to "cleared". -/
def isSanitizerCall : SecOp → Bool
  | SecOp.validateArgsCall _ => true
  | SecOp.validatePortCall _ => true
  | SecOp.validateIpcCall _ => true
  | _ => false

def isValidateArgsCall : SecOp → Bool
  | SecOp.validateArgsCall _ => true
  | _ => false

def isSpawnCall : SecOp → Bool
  | SecOp.spawnSidecar _ _ _ => true
  | _ => false

/-- Trace of the `main.rs` `setup` closure (Linux variant), parameterised by
the build mode, the bytes of the bundled server binary, and the port
returned by `find_free_port`. -/
def main_setup_ops (debug : Bool) (serverBinary : List Nat) (freePort : Nat) : List SecOp :=
  if debug then
    [SecOp.findFreePort,
     SecOp.spawnSidecar "sequb-server" []
       [("PORT", toString freePort), ("SEQUB_ENV", "production")]]
  else
    if main_verify_binary_integrity serverBinary "YOUR_LINUX_BINARY_SHA256_HASH" then
      [SecOp.verifyIntegrity "sequb-server-x86_64-unknown-linux-gnu"
         "YOUR_LINUX_BINARY_SHA256_HASH",
       SecOp.findFreePort,
       SecOp.spawnSidecar "sequb-server" []
         [("PORT", toString freePort), ("SEQUB_ENV", "production")]]
    else
      [SecOp.verifyIntegrity "sequb-server-x86_64-unknown-linux-gnu"
         "YOUR_LINUX_BINARY_SHA256_HASH"]

/-- Trace of `security.rs::spawn_secure_sidecar` (Unix variant): integrity
check, port validation, refusal to run as root, then the spawn with a
cleared environment. -/
def spawn_secure_sidecar_ops (debug : Bool) (binaryContent : List Nat) (inUse : Nat → Bool)
    (uid : Nat) (port : Nat) (config : SecurityConfig) : List SecOp :=
  match (verify_binary_integrity debug binaryContent config.binary_hash).2 with
  | Except.error _ => [SecOp.verifyIntegrity "sidecar" config.binary_hash]
  | Except.ok _ =>
    match validate_port inUse port config with
    | Except.error _ =>
        [SecOp.verifyIntegrity "sidecar" config.binary_hash, SecOp.validatePortCall port]
    | Except.ok safe_port =>
      if uid = 0 then
        [SecOp.verifyIntegrity "sidecar" config.binary_hash, SecOp.validatePortCall port]
      else
        [SecOp.verifyIntegrity "sidecar" config.binary_hash, SecOp.validatePortCall port,
         SecOp.spawnSidecar "sidecar" []
           [("PORT", toString safe_port), ("NODE_ENV", "production"), ("RUST_LOG", "error")]]

/-- Case-insensitive hex-string comparison (the comparison the claim about
the integrity verifier describes; the code itself compares exactly). -/
def lowerAscii (c : Char) : Char :=
  if 'A' ≤ c ∧ c ≤ 'Z' then Char.ofNat (c.toNat + 32) else c

def hexEqCaseless (a b : String) : Bool :=
  a.data.map lowerAscii == b.data.map lowerAscii

/-! ## Helper lemmas: the incremental hasher is chunking-invariant -/

def concatAll : List (List Nat) → List Nat
  | [] => []
  | c :: cs => c ++ concatAll cs

theorem absorbGo_fuel (fuel1 : Nat) : ∀ (fuel2 : Nat) (h data : List Nat),
    data.length ≤ fuel1 → data.length ≤ fuel2 →
    absorbGo fuel1 h data = absorbGo fuel2 h data := by
  induction fuel1 with
  | zero =>
    intro fuel2 h data h1 _
    have hnil : data = [] := List.length_eq_zero.mp (by omega)
    subst hnil
    cases fuel2 <;> simp [absorbGo]
  | succ fuel ih =>
    intro fuel2 h data h1 h2
    cases fuel2 with
    | zero =>
      have hnil : data = [] := List.length_eq_zero.mp (by omega)
      subst hnil
      simp [absorbGo]
    | succ fuel2 =>
      by_cases h64 : 64 ≤ data.length
      · simp only [absorbGo, if_pos h64]
        exact ih fuel2 _ _ (by simp [List.length_drop]; omega)
          (by simp [List.length_drop]; omega)
      · simp only [absorbGo, if_neg h64]

theorem absorb_small (h data : List Nat) (hd : ¬ 64 ≤ data.length) :
    absorb h data = (h, data) := by
  unfold absorb
  cases hL : data.length with
  | zero => simp [absorbGo]
  | succ n => simp [absorbGo, hd]

theorem absorb_large (h data : List Nat) (hd : 64 ≤ data.length) :
    absorb h data = absorb (compress h (data.take 64)) (data.drop 64) := by
  unfold absorb
  obtain ⟨n, hn⟩ : ∃ n, data.length = n + 1 := ⟨data.length - 1, by omega⟩
  rw [hn]
  simp only [absorbGo]
  rw [if_pos hd]
  have hdl : (data.drop 64).length = data.length - 64 := List.length_drop 64 data
  exact absorbGo_fuel n (data.drop 64).length (compress h (data.take 64)) (data.drop 64)
    (by omega) (by omega)

theorem absorb_append (h x y : List Nat) :
    absorb h (x ++ y) = absorb (absorb h x).1 ((absorb h x).2 ++ y) := by
  by_cases hx : 64 ≤ x.length
  · have hxy : 64 ≤ (x ++ y).length := by
      rw [List.length_append]; omega
    rw [absorb_large h (x ++ y) hxy, absorb_large h x hx,
        List.take_append_of_le_length hx, List.drop_append_of_le_length hx]
    exact absorb_append (compress h (x.take 64)) (x.drop 64) y
  · rw [absorb_small h x hx]
termination_by x.length
decreasing_by simp [List.length_drop]; omega

theorem absorbGo_snd_short (fuel : Nat) : ∀ (h data : List Nat), data.length ≤ fuel →
    (absorbGo fuel h data).2.length < 64 := by
  induction fuel with
  | zero =>
    intro h data hl
    have hnil : data = [] := List.length_eq_zero.mp (by omega)
    subst hnil
    simp [absorbGo]
  | succ fuel ih =>
    intro h data hl
    by_cases h64 : 64 ≤ data.length
    · simp only [absorbGo, if_pos h64]
      exact ih _ _ (by simp [List.length_drop]; omega)
    · simp only [absorbGo, if_neg h64]
      omega

theorem absorb_snd_short (h data : List Nat) : (absorb h data).2.length < 64 :=
  absorbGo_snd_short data.length h data (Nat.le_refl _)

theorem shaUpdate_append (st : Sha256) (a b : List Nat) :
    shaUpdate st (a ++ b) = shaUpdate (shaUpdate st a) b := by
  unfold shaUpdate
  rw [← List.append_assoc, absorb_append st.hash (st.buf ++ a) b]
  simp [List.length_append, Nat.add_assoc]

theorem shaUpdate_buf_short (st : Sha256) (d : List Nat) :
    (shaUpdate st d).buf.length < 64 :=
  absorb_snd_short st.hash (st.buf ++ d)

theorem foldl_shaUpdate (l : List (List Nat)) (st : Sha256) (hb : st.buf.length < 64) :
    List.foldl shaUpdate st l = shaUpdate st (concatAll l) := by
  induction l generalizing st with
  | nil =>
    show st = shaUpdate st []
    unfold shaUpdate
    rw [List.append_nil, absorb_small st.hash st.buf (by omega)]
    simp
  | cons c cs ih =>
    show List.foldl shaUpdate (shaUpdate st c) cs = shaUpdate st (c ++ concatAll cs)
    rw [ih (shaUpdate st c) (shaUpdate_buf_short st c), shaUpdate_append]

theorem chunksGo_concat (fuel : Nat) : ∀ l : List Nat, l.length ≤ fuel →
    concatAll (chunksGo fuel l) = l := by
  induction fuel with
  | zero =>
    intro l hl
    have hnil : l = [] := List.length_eq_zero.mp (by omega)
    subst hnil
    rfl
  | succ fuel ih =>
    intro l hl
    cases l with
    | nil => rfl
    | cons c rest =>
      show (c :: rest).take 8192 ++ concatAll (chunksGo fuel ((c :: rest).drop 8192)) = c :: rest
      rw [ih _ (by simp [List.length_drop] at hl ⊢; omega), List.take_append_drop]

theorem chunks8192_concat (l : List Nat) : concatAll (chunks8192 l) = l :=
  chunksGo_concat l.length l (Nat.le_refl _)

/-! ## Claim C10 -/

/-- Claim C10: the chunked incremental SHA-256 of `security.rs` (8192-byte
chunks folded through successive `update`s) computes exactly the digest
that `main.rs` computes by hashing the whole content in one step — the two
verifier implementations agree on the computed digest for every input. -/
theorem chunked_digest_eq_oneshot (content : List Nat) :
    sha256Chunked content = sha256OneShot content := by
  unfold sha256Chunked sha256OneShot
  rw [foldl_shaUpdate (chunks8192 content) Sha256.start (by simp [Sha256.start]),
      chunks8192_concat]

/-! ## Claim C6 -/

/-- Claim C6: with an empty expected digest, `verify_binary_integrity`
succeeds in a debug build (emitting a warning on stderr) and fails with the
"Binary hash not configured" error in a production build — it never
silently passes an empty digest in production. -/
theorem verify_empty_digest (content : List Nat) :
    verify_binary_integrity true content "" =
      (["WARNING: Binary hash verification skipped in debug mode"], Except.ok ()) ∧
    verify_binary_integrity false content "" =
      ([], Except.error "Binary hash not configured") :=
  ⟨rfl, rfl⟩

/-! ## Claim C2 -/

/-- Claim C2, corrected: for a non-empty digest the verifier succeeds iff
the lowercase hex SHA-256 digest of the content equals the expected digest
under exact, case-sensitive comparison; on inequality it fails with the
mismatch error carrying both the expected and the computed digest. -/
theorem verify_nonempty_digest (debug : Bool) (content : List Nat) (d : String)
    (hd : d ≠ "") :
    ((verify_binary_integrity debug content d).2 = Except.ok () ↔
      sha256Chunked content = d) ∧
    (sha256Chunked content ≠ d →
      (verify_binary_integrity debug content d).2 =
        Except.error ("Binary integrity check failed. Expected: " ++ d ++
          ", Got: " ++ sha256Chunked content)) := by
  unfold verify_binary_integrity
  rw [if_neg hd]
  by_cases hc : sha256Chunked content = d
  · simp [hc]
  · simp [hc]

theorem verify_nonempty_digest_witness :
    (verify_binary_integrity true []
      "e3b0c44298fc1c149afbf4c8996fb92427ae41e4649b934ca495991b7852b855").2 =
      Except.ok () :=
  (verify_nonempty_digest true []
    "e3b0c44298fc1c149afbf4c8996fb92427ae41e4649b934ca495991b7852b855"
    (by decide)).1.mpr (by decide)

/-- Claim C2, counterexample to the claim as stated: the uppercase form of
the correct digest is case-insensitively equal to the computed digest, yet
the verifier rejects it (the code compares strings exactly). -/
theorem verify_case_sensitive_counterexample :
    hexEqCaseless (sha256Chunked [])
      "E3B0C44298FC1C149AFBF4C8996FB92427AE41E4649B934CA495991B7852B855" = true ∧
    (verify_binary_integrity true []
      "E3B0C44298FC1C149AFBF4C8996FB92427AE41E4649B934CA495991B7852B855").2 =
      Except.error ("Binary integrity check failed. Expected: " ++
        "E3B0C44298FC1C149AFBF4C8996FB92427AE41E4649B934CA495991B7852B855" ++
        ", Got: " ++ "e3b0c44298fc1c149afbf4c8996fb92427ae41e4649b934ca495991b7852b855") :=
  ⟨by decide, rfl⟩

/-! ## Helper lemmas: `find?` on port lists -/

theorem find_none_of_all_used (inUse : Nat → Bool) :
    ∀ l : List Nat, (∀ q ∈ l, inUse q = true) →
      l.find? (fun p => !inUse p) = none := by
  intro l
  induction l with
  | nil => intro _; rfl
  | cons a t ih =>
    intro h
    have ha : inUse a = true := h a (List.mem_cons_self a t)
    simp [List.find?, ha]
    exact fun q hq => h q (List.mem_cons_of_mem a hq)

theorem find_first_free (inUse : Nat → Bool) :
    ∀ (l1 : List Nat) (p : Nat) (l2 : List Nat), (∀ q ∈ l1, inUse q = true) →
      inUse p = false →
      (l1 ++ p :: l2).find? (fun q => !inUse q) = some p := by
  intro l1
  induction l1 with
  | nil =>
    intro p l2 _ hp
    simp [List.find?, hp]
  | cons a t ih =>
    intro p l2 h hp
    have ha : inUse a = true := h a (List.mem_cons_self a t)
    simp only [List.cons_append, List.find?, ha, Bool.not_true]
    exact ih p l2 (fun q hq => h q (List.mem_cons_of_mem a hq)) hp

theorem range_find_least (inUse : Nat → Bool) :
    ∀ (n a p : Nat), a ≤ p → p < a + n → inUse p = false →
      (∀ r, a ≤ r → r < p → inUse r = true) →
      (List.range' a n).find? (fun q => !inUse q) = some p := by
  intro n
  induction n with
  | zero =>
    intro a p h1 h2 _ _
    omega
  | succ n ih =>
    intro a p h1 h2 hp hall
    rw [List.range'_succ]
    by_cases hap : a = p
    · subst hap
      simp [List.find?, hp]
    · have ha : inUse a = true := hall a (Nat.le_refl a) (by omega)
      simp only [List.find?, ha, Bool.not_true]
      exact ih (a + 1) p (by omega) (by omega) hp (fun r hr1 hr2 => hall r (by omega) hr2)

theorem mem_range_bounds : ∀ (n a q : Nat), q ∈ List.range' a n → a ≤ q ∧ q < a + n := by
  intro n
  induction n with
  | zero => intro a q hq; simp [List.range'] at hq
  | succ n ih =>
    intro a q hq
    rw [List.range'_succ] at hq
    rcases List.mem_cons.mp hq with h | h
    · omega
    · have := ih (a + 1) q h
      omega

/-! ## Claim C5 -/

/-- Claim C5: for a fixed port-occupancy state, `find_available_port` is the
deterministic function that returns the first free port of
`config.allowed_ports` in list order; when every allowed port is occupied it
returns the lowest free port of the default range 3000–3999; and when that
range is also exhausted it fails with the no-port-available error. -/
theorem find_available_port_spec (inUse : Nat → Bool) (config : SecurityConfig) :
    (∀ (l1 : List Nat) (p : Nat) (l2 : List Nat),
      config.allowed_ports = l1 ++ p :: l2 → (∀ q ∈ l1, inUse q = true) → inUse p = false →
        find_available_port inUse config = Except.ok p) ∧
    ((∀ q ∈ config.allowed_ports, inUse q = true) →
      ∀ p, 3000 ≤ p → p < 4000 → inUse p = false →
        (∀ r, 3000 ≤ r → r < p → inUse r = true) →
        find_available_port inUse config = Except.ok p) ∧
    ((∀ q ∈ config.allowed_ports, inUse q = true) →
      (∀ r, 3000 ≤ r → r < 4000 → inUse r = true) →
      find_available_port inUse config = Except.error "No available ports found") := by
  refine ⟨?_, ?_, ?_⟩
  · intro l1 p l2 heq h1 hp
    unfold find_available_port
    rw [heq, find_first_free inUse l1 p l2 h1 hp]
  · intro hall p h1 h2 hp hleast
    unfold find_available_port
    rw [find_none_of_all_used inUse config.allowed_ports hall,
        range_find_least inUse 1000 3000 p h1 (by omega) hp hleast]
  · intro hall hrange
    unfold find_available_port
    rw [find_none_of_all_used inUse config.allowed_ports hall,
        find_none_of_all_used inUse (List.range' 3000 1000)
          (fun q hq => hrange q (mem_range_bounds 1000 3000 q hq).1
            (mem_range_bounds 1000 3000 q hq).2)]

theorem find_available_port_spec_witness :
    find_available_port (fun p => decide (p = 3000)) SecurityConfig.standard =
      Except.ok 3001 :=
  (find_available_port_spec (fun p => decide (p = 3000)) SecurityConfig.standard).1
    [3000] 3001 [3002, 3003, 3004] rfl (by decide) (by decide)

/-! ## Claim C4 -/

/-- Claim C4, counterexample: terminating a process identifier that no
longer names a live process is an error — `libc::kill` fails with `ESRCH`
for both SIGTERM and SIGKILL, so `kill_process` returns the
"Failed to kill process" error rather than success. -/
theorem kill_process_dead_pid_errors :
    ProcessMonitor.kill_process (fun _ => false) ⟨42, 512, 50⟩ =
      Except.error "Failed to kill process" := rfl

/-- Claim C4, amended: `kill_process` succeeds exactly while the pid still
names a signalable process; once the process is fully gone both signals
fail and the call returns the "Failed to kill process" error, so a second
termination of a now-dead pid errors (termination is not idempotent). -/
theorem kill_process_amended (alive : Nat → Bool) (m : ProcessMonitor) :
    (alive m.pid = false →
      ProcessMonitor.kill_process alive m = Except.error "Failed to kill process") ∧
    (alive m.pid = true →
      ProcessMonitor.kill_process alive m = Except.ok ()) := by
  constructor <;> intro h <;>
    simp [ProcessMonitor.kill_process, libcKillResult, h]

theorem kill_process_amended_witness :
    ProcessMonitor.kill_process (fun _ => true) ⟨7, 512, 50⟩ = Except.ok () :=
  (kill_process_amended (fun _ => true) ⟨7, 512, 50⟩).2 rfl

/-! ## Claim C9 -/

/-- Claim C9: for a monitored pid whose process has already exited (its
`/proc/<pid>/stat` entry is gone), `check_limits` returns success — the
not-running case is not an error and is never reported as a limit
violation. -/
theorem check_limits_dead_process_ok (procStat procStatus : Nat → Option String)
    (m : ProcessMonitor) (h : procStat m.pid = none) :
    ProcessMonitor.check_limits procStat procStatus m = Except.ok () := by
  unfold ProcessMonitor.check_limits
  rw [h]

theorem check_limits_dead_process_ok_witness :
    ProcessMonitor.check_limits (fun _ => none) (fun _ => none) ⟨42, 512, 50⟩ =
      Except.ok () :=
  check_limits_dead_process_ok (fun _ => none) (fun _ => none) ⟨42, 512, 50⟩ rfl

/-! ## Helper lemmas: the leading-dash deny pattern dominates the port branch -/

theorem isPre_dash_false (xs : List Char) (l : List Char) (h : startsDash l = false) :
    isPre ('-' :: xs) l = false := by
  cases l with
  | nil => rfl
  | cons c t =>
    by_cases hc : c = '-'
    · subst hc
      simp [startsDash] at h
    · have hb : (('-' : Char) == c) = false := by
        simp [Ne.symm hc]
      simp [isPre, hb]

theorem checkPortArg_of_no_dash (arg : String) (h : startsDash arg.data = false) :
    checkPortArg arg = Except.ok () := by
  unfold checkPortArg
  rw [isPre_dash_false ['-', 'p', 'o', 'r', 't', '='] arg.data h,
      isPre_dash_false ['p'] arg.data h]
  rfl

theorem startsDash_false_of_safe (arg : String) (hm : matchesDangerous arg = false) :
    startsDash arg.data = false := by
  cases hs : startsDash arg.data
  · rfl
  · exfalso
    unfold matchesDangerous at hm
    rw [hs] at hm
    simp at hm

theorem validate_cons_safe (arg : String) (rest : List String)
    (hm : matchesDangerous arg = false) :
    validate_command_args (arg :: rest) =
      match validate_command_args rest with
      | Except.ok l => Except.ok (arg :: l)
      | Except.error e => Except.error e := by
  have hd : startsDash arg.data = false := startsDash_false_of_safe arg hm
  simp [validate_command_args, hm, checkPortArg_of_no_dash arg hd]

/-! ## Claim C3 -/

/-- Claim C3, evaluated on the code: the spec's (and the repository's own
unit test's) safe argument list is rejected, because the `^-` deny pattern
matches every leading-dash flag before the port branch can run. -/
theorem safe_flag_list_rejected :
    validate_command_args ["--port=3000", "--verbose"] =
      Except.error "Dangerous argument detected: --port=3000" := rfl

/-! ## Claim C7 -/

/-- Claim C7: any argument list containing an argument that matches a deny
pattern (shell metacharacters, `../` traversal, leading dash, command
substitution, device redirection) is rejected as a whole with the
"Dangerous argument detected" error naming an offending argument, and no
cleared list is ever returned (fail-closed). -/
theorem validate_args_fail_closed (args : List String)
    (h : ∃ a ∈ args, matchesDangerous a = true) :
    (∃ a ∈ args, matchesDangerous a = true ∧
      validate_command_args args = Except.error ("Dangerous argument detected: " ++ a)) ∧
    ∀ l, validate_command_args args ≠ Except.ok l := by
  induction args with
  | nil => simp at h
  | cons a rest ih =>
    cases hm : matchesDangerous a with
    | true =>
      have hv : validate_command_args (a :: rest) =
          Except.error ("Dangerous argument detected: " ++ a) := by
        simp [validate_command_args, hm]
      refine ⟨⟨a, List.mem_cons_self a rest, hm, hv⟩, ?_⟩
      intro l hl
      rw [hv] at hl
      cases hl
    | false =>
      have h2 : ∃ b ∈ rest, matchesDangerous b = true := by
        rcases h with ⟨b, hb, hbm⟩
        rcases List.mem_cons.mp hb with heq | hmem
        · subst heq
          rw [hm] at hbm
          cases hbm
        · exact ⟨b, hmem, hbm⟩
      rcases ih h2 with ⟨⟨b, hbr, hbm, hbv⟩, _⟩
      have hv : validate_command_args (a :: rest) =
          Except.error ("Dangerous argument detected: " ++ b) := by
        rw [validate_cons_safe a rest hm, hbv]
      refine ⟨⟨b, List.mem_cons_of_mem a hbr, hbm, hv⟩, ?_⟩
      intro l hl
      rw [hv] at hl
      cases hl

theorem validate_args_fail_closed_witness :
    (∃ a ∈ ["server", "; rm -rf /"], matchesDangerous a = true ∧
      validate_command_args ["server", "; rm -rf /"] =
        Except.error ("Dangerous argument detected: " ++ a)) ∧
    ∀ l, validate_command_args ["server", "; rm -rf /"] ≠ Except.ok l :=
  validate_args_fail_closed ["server", "; rm -rf /"] (by decide)

/-! ## Claim C8 -/

/-- Claim C8: `validate_ipc_message` rejects every message whose UTF-8 byte
length exceeds 10000 with the "Message too large" error, rejects every
message within the cap that matches one of the script-injection deny
patterns with the "Potentially malicious content detected" error, and
returns every other message unchanged.  The theorem is uniform in the
word-character class `isWord`, so it holds in particular at the regex
crate's Unicode `\w` class, which is the program's instance. -/
theorem validate_ipc_spec (isWord : Char → Bool) (m : String) :
    (10000 < m.utf8ByteSize →
      validate_ipc_message isWord m = Except.error "Message too large") ∧
    (m.utf8ByteSize ≤ 10000 → ipcDangerous isWord m.data = true →
      validate_ipc_message isWord m =
        Except.error "Potentially malicious content detected") ∧
    (m.utf8ByteSize ≤ 10000 → ipcDangerous isWord m.data = false →
      validate_ipc_message isWord m = Except.ok m) := by
  refine ⟨fun h => ?_, fun h hd => ?_, fun h hd => ?_⟩
  · simp [validate_ipc_message, h]
  · simp [validate_ipc_message, Nat.not_lt.mpr h, hd]
  · simp [validate_ipc_message, Nat.not_lt.mpr h, hd]

theorem validate_ipc_spec_witness :
    validate_ipc_message (fun c => c.isAlpha || c.isDigit || c == '_') "eval (1)" =
      Except.error "Potentially malicious content detected" :=
  (validate_ipc_spec (fun c => c.isAlpha || c.isDigit || c == '_') "eval (1)").2.1
    (by decide) (by decide)

/-! ## Claim C1 -/

/-- Claim C1, evaluated on the code: the debug-build launch path of
`main.rs` reaches the process-spawn boundary carrying the environment
strings `PORT` and `SEQUB_ENV` while invoking no sanitizer at all, and no
launch path of the program ever invokes `validate_command_args` — the
spawn boundary is reached bypassing sanitization. -/
theorem launch_path_bypasses_sanitizers :
    main_setup_ops true [] 3000 =
      [SecOp.findFreePort,
       SecOp.spawnSidecar "sequb-server" []
         [("PORT", "3000"), ("SEQUB_ENV", "production")]] ∧
    (∀ (debug : Bool) (serverBinary : List Nat) (freePort : Nat),
      (main_setup_ops debug serverBinary freePort).all
        (fun op => !isSanitizerCall op) = true) ∧
    (∀ (debug : Bool) (binaryContent : List Nat) (inUse : Nat → Bool) (uid port : Nat)
        (config : SecurityConfig),
      (spawn_secure_sidecar_ops debug binaryContent inUse uid port config).all
        (fun op => !isValidateArgsCall op) = true) := by
  refine ⟨rfl, ?_, ?_⟩
  · intro debug serverBinary freePort
    cases debug
    · by_cases hv : main_verify_binary_integrity serverBinary "YOUR_LINUX_BINARY_SHA256_HASH"
      · simp [main_setup_ops, hv, isSanitizerCall]
      · simp [main_setup_ops, hv, isSanitizerCall]
    · simp [main_setup_ops, isSanitizerCall]
  · intro debug binaryContent inUse uid port config
    unfold spawn_secure_sidecar_ops
    cases hv : (verify_binary_integrity debug binaryContent config.binary_hash).2 with
    | error e => simp [isValidateArgsCall]
    | ok u =>
      cases hp : validate_port inUse port config with
      | error e => simp [isValidateArgsCall]
      | ok sp =>
        by_cases hu : uid = 0
        · simp [hu, isValidateArgsCall]
        · simp [hu, isValidateArgsCall]
